import Mathlib

/-! pdfcheck: the command-line driver

A shallow embedding of `src/pdfcheck.go`: the function `getArgs` (lines 52-97)
and the function `main` (lines 99-132).

The driver is sequential code with three kinds of effects: it writes to the
standard output, it calls the PDF engine (`pdf.Parse`, `Check`, the `Print*`
accessors, `Serialize`) and it may end the process with `os.Exit`.  A run is
therefore modelled by the list of effects it performed, in program order,
together with the way it ended.

Two things the driver imports are not part of the repository and are taken as
parameters:

* the Go `flag` package.  `CommandLine` records what `flag.Parse` (line 72)
  found on the command line once it has returned: for each registered flag
  whether it occurred and with which value, and the remaining positional
  arguments (`flag.Args()`).  `getArgs` and `main` are the code after that
  call.  `flagParse` is the call itself on the arguments of the command line,
  with the endings in which it terminates the process (`-h`, an undefined
  flag, a malformed value); `getArgsArgv` and `mainArgv` are `getArgs` and
  `main` with it.
* the engine `github.com/jrm-1535/pdf`.  `Engine` holds what its operations
  return to the driver.
-/

namespace PdfCheck

/-! ## Constants (lines 11-17) -/

def VERSION : String := "0.1"
def VERBOSE : Bool := false
def FIXPARSE : Bool := false
def FIXSTREAM : Bool := false
def SUMMARY : Bool := false
def DUMP : Bool := false

/-! ## Argument records -/

/-- The fields of `pdf.ParseArgs` that the driver writes (lines 57, 58, 95). -/
structure ParseArgs where
  Path : String
  Verbose : Bool
  Fix : Bool
  deriving DecidableEq, Repr

/-- The fields of `pdf.StreamArgs` that the driver writes (lines 61, 62). -/
structure StreamArgs where
  Verbose : Bool
  Fix : Bool
  deriving DecidableEq, Repr

/-- The record `processArgs` (lines 46-50). -/
structure processArgs where
  output : String
  summary : Bool
  dump : Bool
  deriving DecidableEq, Repr

/-- What `flag.Parse` found on the command line.  A flag that does not occur is
`none`; a boolean flag written `-vp` is `some true`, written `-vp=false` it is
`some false`; `-o name` is `some name`.  `arguments` is `flag.Args()`. -/
structure CommandLine where
  v : Option Bool
  vp : Option Bool
  fp : Option Bool
  vs : Option Bool
  fs : Option Bool
  o : Option String
  s : Option Bool
  d : Option Bool
  arguments : List String
  deriving DecidableEq, Repr

/-- The value of a variable registered with `flag.BoolVar` or `flag.StringVar`
after `flag.Parse`: the registered default unless the flag occurred. -/
def flagVar {α : Type} (dflt : α) (given : Option α) : α :=
  match given with
  | none => dflt
  | some x => x

/-! ## Runs -/

/-- How a piece of code ends: by `os.Exit` with a status, or by returning. -/
inductive Ending (α : Type) where
  | exit (status : Nat)
  | ret (value : α)
  deriving DecidableEq, Repr

/-- The effects performed, in program order, and the ending. -/
structure Outcome (ε α : Type) where
  events : List ε
  ending : Ending α
  deriving DecidableEq, Repr

/-- The exit status of the process: the argument of `os.Exit`, or 0 when
`main` returns. -/
def exitStatus {ε α : Type} (r : Outcome ε α) : Nat :=
  match r.ending with
  | Ending.exit n => n
  | Ending.ret _ => 0

/-! ## getArgs (lines 52-97) -/

/-- The function `getArgs`.  The events are the texts written with
`fmt.Printf`. -/
def getArgs (cl : CommandLine) : Outcome String (ParseArgs × StreamArgs × processArgs) :=
  let version : Bool := flagVar false cl.v
  let pArgs : ParseArgs :=
    { Path := "", Verbose := flagVar VERBOSE cl.vp, Fix := flagVar FIXPARSE cl.fp }
  let sArgs : StreamArgs :=
    { Verbose := flagVar VERBOSE cl.vs, Fix := flagVar FIXSTREAM cl.fs }
  let processArgs : processArgs :=
    { output := flagVar "" cl.o, summary := flagVar SUMMARY cl.s, dump := flagVar DUMP cl.d }
  if version then
    ⟨["pdfCheck version " ++ VERSION ++ "\n"], Ending.exit 0⟩
  else
    let arguments := cl.arguments
    if arguments.length < 1 then
      ⟨["Missing the name of the file to process\n"], Ending.exit 2⟩
    else if arguments.length > 1 then
      ⟨["Too many files specified (only 1 file at a time)\n"], Ending.exit 2⟩
    else
      let warning : List String :=
        if pArgs.Fix || sArgs.Fix then
          if processArgs.output == "" then
            ["Warning: although fixing the original file is requested, NO output file is requested\n",
             "         proceeding anyway\n"]
          else []
        else if processArgs.output != "" then
          ["Warning: although an output file is requested, fixing the original file is NOT requested\n",
           "         proceeding anyway\n"]
        else []
      -- `arguments[0]`: the list has exactly one element here
      ⟨warning, Ending.ret ({ pArgs with Path := arguments.getD 0 "" }, sArgs, processArgs)⟩

/-! ## The engine and main (lines 99-132) -/

/-- What the operations of package `pdf` return to the driver.  `Doc` is the
state of the value behind the pointer `pdfData`.  An `error` is represented by
the text that `%v` prints for it.  `Check` has a pointer receiver and may
change the document, so it returns the new state with its result. -/
structure Engine (Doc : Type) where
  Parse : ParseArgs → Except String Doc
  Check : Doc → StreamArgs → Doc × Option String
  Version : Doc → String
  Objects : Doc → Nat
  Size : Doc → Int
  Serialize : Doc → String → Option String

/-- The effects of `main`, one constructor per statement with an effect.
`version` and `objectCount` are the two `fmt.Printf` of lines 114 and 115;
`serialize` records the result of the call, which `main` discards. -/
inductive Event (Doc : Type) where
  | print (text : String)
  | parse (args : ParseArgs)
  | check (doc : Doc) (args : StreamArgs)
  | version (v : String)
  | objectCount (n : Nat) (size : Int)
  | printFileIds (doc : Doc)
  | printInfo (doc : Doc)
  | printCatalog (doc : Doc)
  | printAllObjs (doc : Doc)
  | serialize (doc : Doc) (path : String) (result : Option String)
  deriving DecidableEq, Repr

/-- The text a driver statement writes to the standard output (what the
engine operations print themselves is not modelled). -/
def stdoutText {Doc : Type} : Event Doc → Option String
  | Event.print t => some t
  | Event.version v => some ("PDF version: <" ++ v ++ ">\n")
  | Event.objectCount n size =>
      some ("number of indirect objects: " ++ toString n ++ " (" ++ toString size ++ ")\n")
  | _ => none

/-- The function `main`. -/
def main {Doc : Type} (E : Engine Doc) (cl : CommandLine) : Outcome (Event Doc) Unit :=
  match getArgs cl with
  | ⟨out, Ending.exit status⟩ => ⟨out.map Event.print, Ending.exit status⟩
  | ⟨out, Ending.ret (pArgs, cArgs, process)⟩ =>
    let t0 : List (Event Doc) :=
      out.map Event.print ++
        [Event.print ("Parsing pdf file: " ++ pArgs.Path ++ "\n"), Event.parse pArgs]
    match E.Parse pArgs with
    | Except.error err => ⟨t0 ++ [Event.print err], Ending.ret ()⟩
    | Except.ok pdfData0 =>
      let t1 := t0 ++ [Event.check pdfData0 cArgs]
      match E.Check pdfData0 cArgs with
      | (_, some _) => ⟨t1, Ending.exit 2⟩
      | (pdfData, none) =>
        let t2 := t1 ++
          (if process.summary then
            [Event.version (E.Version pdfData),
             Event.objectCount (E.Objects pdfData) (E.Size pdfData),
             Event.printFileIds pdfData,
             Event.printInfo pdfData,
             Event.printCatalog pdfData]
           else [])
        let t3 := t2 ++ (if process.dump then [Event.printAllObjs pdfData] else [])
        let t4 := t3 ++
          (if process.output != "" then
            [Event.print ("Writing to file: " ++ process.output ++ "\n"),
             Event.serialize pdfData process.output (E.Serialize pdfData process.output)]
           else [])
        ⟨t4, Ending.ret ()⟩

/-- The constant `HELP` (lines 19-43), one literal per line of the text. -/
def HELP : String :=
  String.join
    ["pdfcheck [-h] [-v] [-vp] [-fp] [-vs] [-fs] [-o=name] filepath\n",
     "\n",
     "    Checks if a file is a valid pdf document, allowing to fix some minor syntactic error\n",
     "    in the pdf file format or in various stream formats\n",
     "\n",
     "    Options:\n",
     "        -h          print this help message and exits\n",
     "        -v          print pdfCheck version and exits\n",
     "\n",
     "        -s          display a summary (info & catalog)\n",
     "        -d          dump all defined indirect objects\n",
     " \n",
     "        -vp         verbose during parsing\n",
     "        -fp         try fixing errors during parsing, instead of stopping\n",
     "\n",
     "        -vs         verbose checking the embedded streams\n",
     "        -fs         try fixing stream errors (e.g. invalid jpeg streams)\n",
     "\n",
     "        -o  name    output the hopefully fixed data to a new file\n",
     "                    this option is meaningful if -fp or -fs is specified\n",
     "                    if nothing was fixed, the files will be similar if not identical\n",
     "\n",
     "    filepath is the path to the original file to process\n",
     "\n"]

/-! ## flag.Parse (line 72)

`flag.Parse()` is the Go standard library: `FlagSet.Parse` and `parseOne` of
package `flag`, on the default flag set `flag.CommandLine`, whose error
handling is `ExitOnError`.  It is modelled here for the eight flags that
`getArgs` registers (lines 56-67) and for the usage function that `getArgs`
installs (lines 69-71). -/

/-- The function `strconv.ParseBool`, which sets a boolean flag written
`-name=value`. -/
def parseBool (value : String) : Option Bool :=
  if value ∈ ["1", "t", "T", "TRUE", "true", "True"] then some true
  else if value ∈ ["0", "f", "F", "FALSE", "false", "False"] then some false
  else none

/-- How `parseOne` reads one argument. -/
inductive FlagToken where
  /-- Shorter than two bytes or not starting with `-`: the flags end here and
  the argument stays in `flag.Args()`. -/
  | positional
  /-- The argument `--`: the flags end here and the argument is dropped. -/
  | terminator
  /-- A name that is empty or starts with `-` or `=`: "bad flag syntax". -/
  | bad
  /-- The flag `-name`, `--name`, `-name=value` or `--name=value`. -/
  | flag (name : String) (value : Option String)
  deriving DecidableEq, Repr

/-- The first part of `parseOne`: minus signs, name and value of an argument. -/
def flagToken (s : String) : FlagToken :=
  match s.toList with
  | '-' :: c :: cs =>
    if c = '-' ∧ cs = [] then FlagToken.terminator
    else
      let name : List Char := if c = '-' then cs else c :: cs
      match name with
      | [] => FlagToken.bad
      | n0 :: _ =>
        if n0 = '-' ∨ n0 = '=' then FlagToken.bad
        else
          match name.span (fun ch => ch != '=') with
          | (nm, []) => FlagToken.flag (String.mk nm) none
          | (nm, _ :: value) => FlagToken.flag (String.mk nm) (some (String.mk value))
  | _ => FlagToken.positional

/-- The errors of `parseOne`; each is written to the output of the flag set,
followed by the usage text, and ends the process with status 2. -/
inductive FlagError where
  | badSyntax (arg : String)
  | notDefined (name : String)
  | invalidBoolean (value : String) (name : String)
  | needsArgument (name : String)
  deriving DecidableEq, Repr

/-- How `flag.Parse` ends: it returns, or it ends the process after `-h` or
`-help` (usage text, status 0) or after an error (status 2). -/
inductive FlagEnding where
  | returned
  | help
  | failed (err : FlagError)
  deriving DecidableEq, Repr

/-- The flag variables when `flag.Parse` ends (in `vars`, whose field
`arguments` holds the arguments not consumed) and how it ended. -/
structure FlagResult where
  vars : CommandLine
  ending : FlagEnding
  deriving DecidableEq, Repr

/-- The boolean flags registered at lines 56-62 and 66-67: how `-name` sets
its variable; `none` for a name that is not one of them. -/
def boolFlag (name : String) : Option (CommandLine → Bool → CommandLine) :=
  if name = "v" then some fun vars b => { vars with v := some b }
  else if name = "vp" then some fun vars b => { vars with vp := some b }
  else if name = "fp" then some fun vars b => { vars with fp := some b }
  else if name = "vs" then some fun vars b => { vars with vs := some b }
  else if name = "fs" then some fun vars b => { vars with fs := some b }
  else if name = "s" then some fun vars b => { vars with s := some b }
  else if name = "d" then some fun vars b => { vars with d := some b }
  else none

/-- The loop of `FlagSet.Parse` over the arguments, one `parseOne` per step. -/
def flagParseLoop (vars : CommandLine) : List String → FlagResult
  | [] => ⟨{ vars with arguments := [] }, FlagEnding.returned⟩
  | s :: rest =>
    match flagToken s with
    | FlagToken.positional => ⟨{ vars with arguments := s :: rest }, FlagEnding.returned⟩
    | FlagToken.terminator => ⟨{ vars with arguments := rest }, FlagEnding.returned⟩
    | FlagToken.bad =>
      ⟨{ vars with arguments := s :: rest }, FlagEnding.failed (FlagError.badSyntax s)⟩
    | FlagToken.flag name value =>
      if name = "o" then
        -- the string flag of line 65: its value may be the next argument
        match value with
        | some x => flagParseLoop { vars with o := some x } rest
        | none =>
          match rest with
          | x :: rest2 => flagParseLoop { vars with o := some x } rest2
          | [] =>
            ⟨{ vars with arguments := [] }, FlagEnding.failed (FlagError.needsArgument name)⟩
      else
        match boolFlag name with
        | none =>
          -- not registered: `-h` and `-help` ask for the usage text
          if name = "help" ∨ name = "h" then ⟨{ vars with arguments := rest }, FlagEnding.help⟩
          else ⟨{ vars with arguments := rest }, FlagEnding.failed (FlagError.notDefined name)⟩
        | some set =>
          match value with
          | none => flagParseLoop (set vars true) rest
          | some x =>
            match parseBool x with
            | none =>
              ⟨{ vars with arguments := rest },
               FlagEnding.failed (FlagError.invalidBoolean x name)⟩
            | some b => flagParseLoop (set vars b) rest

/-- No flag has occurred yet. -/
def noFlags : CommandLine :=
  { v := none, vp := none, fp := none, vs := none, fs := none,
    o := none, s := none, d := none, arguments := [] }

/-- The call `flag.Parse()` on the arguments of the command line
(`os.Args[1:]`). -/
def flagParse (argv : List String) : FlagResult :=
  flagParseLoop noFlags argv

/-- The status with which `flag.Parse` ends the process, `none` when it
returns. -/
def FlagEnding.status : FlagEnding → Option Nat
  | FlagEnding.returned => none
  | FlagEnding.help => some 0
  | FlagEnding.failed _ => some 2

/-- What the usage function of lines 69-71 has written to the output of the
flag set (the standard error) when `flag.Parse` ends; after an error it
follows the line of the error. -/
def FlagEnding.usage : FlagEnding → List String
  | FlagEnding.returned => []
  | FlagEnding.help => [HELP]
  | FlagEnding.failed _ => [HELP]

/-- The function `getArgs` from the arguments of the command line: line 72,
then lines 73-96.  The events are the texts written to the standard output. -/
def getArgsArgv (argv : List String) :
    Outcome String (ParseArgs × StreamArgs × processArgs) :=
  match (flagParse argv).ending.status with
  | some status => ⟨[], Ending.exit status⟩
  | none => getArgs (flagParse argv).vars

/-- The function `main` from the arguments of the command line. -/
def mainArgv {Doc : Type} (E : Engine Doc) (argv : List String) : Outcome (Event Doc) Unit :=
  match (flagParse argv).ending.status with
  | some status => ⟨[], Ending.exit status⟩
  | none => main E (flagParse argv).vars

/-! ## Vocabulary of the properties -/

/-- The statements of the summary block (lines 112-121). -/
def Event.isSummary {Doc : Type} : Event Doc → Bool
  | Event.version _ => true
  | Event.objectCount _ _ => true
  | Event.printFileIds _ => true
  | Event.printInfo _ => true
  | Event.printCatalog _ => true
  | _ => false

/-- The object dump (line 123). -/
def Event.isDump {Doc : Type} : Event Doc → Bool
  | Event.printAllObjs _ => true
  | _ => false

/-- A call of `Serialize` (line 127). -/
def Event.isSerialize {Doc : Type} : Event Doc → Bool
  | Event.serialize _ _ _ => true
  | _ => false

/-- A call of `Check` (line 107). -/
def Event.isCheck {Doc : Type} : Event Doc → Bool
  | Event.check _ _ => true
  | _ => false

/-- A call of `pdf.Parse` (line 103). -/
def Event.isParse {Doc : Type} : Event Doc → Bool
  | Event.parse _ => true
  | _ => false

/-- The calls of `Serialize` in a run: document and path of each. -/
def serializeCalls {Doc : Type} (tr : List (Event Doc)) : List (Doc × String) :=
  tr.filterMap fun ev =>
    match ev with
    | Event.serialize doc path _ => some (doc, path)
    | _ => none

/-- The place of an engine operation in the pipeline Parse, Check, version,
object count, PrintFileIds, PrintInfo, PrintCatalog, PrintAllObjs, Serialize;
`none` for a plain `fmt.Printf` of the driver. -/
def pipelineRank {Doc : Type} : Event Doc → Option Nat
  | Event.print _ => none
  | Event.parse _ => some 0
  | Event.check _ _ => some 1
  | Event.version _ => some 2
  | Event.objectCount _ _ => some 3
  | Event.printFileIds _ => some 4
  | Event.printInfo _ => some 5
  | Event.printCatalog _ => some 6
  | Event.printAllObjs _ => some 7
  | Event.serialize _ _ _ => some 8

/-- The warning of lines 86-94, as a function of the two fix variables and of
the output variable. -/
def warningText (fixParse fixStream : Bool) (output : String) : List String :=
  if fixParse || fixStream then
    if output == "" then
      ["Warning: although fixing the original file is requested, NO output file is requested\n",
       "         proceeding anyway\n"]
    else []
  else if output != "" then
    ["Warning: although an output file is requested, fixing the original file is NOT requested\n",
     "         proceeding anyway\n"]
  else []

/-! ## A small engine, for concrete runs

Documents are object counts.  `missing.pdf` cannot be opened, `broken.pdf`
parses to a document without objects that `Check` rejects, any other path
parses to seven objects; writing to `/` fails. -/

def sampleEngine : Engine Nat where
  Parse := fun a =>
    if a.Path = "missing.pdf" then Except.error "open missing.pdf: no such file or directory\n"
    else if a.Path = "broken.pdf" then Except.ok 0
    else Except.ok 7
  Check := fun doc _ => if doc = 0 then (doc, some "no object") else (doc, none)
  Version := fun _ => "1.4"
  Objects := fun doc => doc
  Size := fun doc => Int.ofNat doc + 1
  Serialize := fun _ path => if path = "/" then some "open /: is a directory" else none

/-- The command line `pdfcheck file` for a given file name. -/
def plainCommand (file : String) : CommandLine :=
  { v := none, vp := none, fp := none, vs := none, fs := none,
    o := none, s := none, d := none, arguments := [file] }

/-- The command line `pdfcheck -v -fp -s a.pdf b.pdf`. -/
def versionCommand : CommandLine :=
  { v := some true, vp := none, fp := some true, vs := none, fs := none,
    o := none, s := some true, d := none, arguments := ["a.pdf", "b.pdf"] }

/-- The command line `pdfcheck -vp -fs -s -d -o out.pdf in.pdf`. -/
def fullCommand : CommandLine :=
  { v := none, vp := some true, fp := none, vs := none, fs := some true,
    o := some "out.pdf", s := some true, d := some true, arguments := ["in.pdf"] }

/-! ## Unfolding lemmas -/

theorem flagVar_false_eq_true (x : Option Bool) : flagVar false x = true ↔ x = some true := by
  cases x with
  | none => simp [flagVar]
  | some b => simp [flagVar]

theorem flagVar_false_eq_false (x : Option Bool) : flagVar false x = false ↔ x ≠ some true := by
  cases x with
  | none => simp [flagVar]
  | some b => simp [flagVar]

theorem flagVar_output_ne (x : Option String) :
    flagVar "" x ≠ "" ↔ ∃ path, x = some path ∧ path ≠ "" := by
  cases x with
  | none => simp [flagVar]
  | some b => simp [flagVar]

theorem versionText : "pdfCheck version " ++ VERSION ++ "\n" = "pdfCheck version 0.1\n" := by
  decide

theorem getArgs_version (cl : CommandLine) (hv : cl.v = some true) :
    getArgs cl = ⟨["pdfCheck version 0.1\n"], Ending.exit 0⟩ := by
  have h : flagVar false cl.v = true := (flagVar_false_eq_true cl.v).2 hv
  simp only [getArgs, h, if_true, versionText]

theorem getArgs_missing (cl : CommandLine) (hv : cl.v ≠ some true) (h0 : cl.arguments.length = 0) :
    getArgs cl = ⟨["Missing the name of the file to process\n"], Ending.exit 2⟩ := by
  have h : flagVar false cl.v = false := (flagVar_false_eq_false cl.v).2 hv
  simp [getArgs, h, h0]

theorem getArgs_too_many (cl : CommandLine) (hv : cl.v ≠ some true) (h1 : 1 < cl.arguments.length) :
    getArgs cl = ⟨["Too many files specified (only 1 file at a time)\n"], Ending.exit 2⟩ := by
  have h : flagVar false cl.v = false := (flagVar_false_eq_false cl.v).2 hv
  have h2 : ¬ cl.arguments.length < 1 := by omega
  simp [getArgs, h, h1, h2]

theorem getArgs_one (cl : CommandLine) (p : String) (hv : cl.v ≠ some true)
    (hp : cl.arguments = [p]) :
    getArgs cl =
      ⟨warningText (flagVar false cl.fp) (flagVar false cl.fs) (flagVar "" cl.o),
       Ending.ret
        ({ Path := p, Verbose := flagVar false cl.vp, Fix := flagVar false cl.fp },
         { Verbose := flagVar false cl.vs, Fix := flagVar false cl.fs },
         { output := flagVar "" cl.o, summary := flagVar false cl.s,
           dump := flagVar false cl.d })⟩ := by
  have h : flagVar false cl.v = false := (flagVar_false_eq_false cl.v).2 hv
  simp [getArgs, h, hp, warningText, VERBOSE, FIXPARSE, FIXSTREAM, SUMMARY, DUMP]

/-- The three ways `getArgs` can end. -/
theorem getArgs_cases (cl : CommandLine) :
    (cl.v = some true ∧ getArgs cl = ⟨["pdfCheck version 0.1\n"], Ending.exit 0⟩) ∨
    (cl.v ≠ some true ∧ (cl.arguments.length = 0 ∨ 1 < cl.arguments.length) ∧
      ∃ w, getArgs cl = ⟨w, Ending.exit 2⟩) ∨
    (cl.v ≠ some true ∧ ∃ p, cl.arguments = [p] ∧
      getArgs cl =
        ⟨warningText (flagVar false cl.fp) (flagVar false cl.fs) (flagVar "" cl.o),
         Ending.ret
          ({ Path := p, Verbose := flagVar false cl.vp, Fix := flagVar false cl.fp },
           { Verbose := flagVar false cl.vs, Fix := flagVar false cl.fs },
           { output := flagVar "" cl.o, summary := flagVar false cl.s,
             dump := flagVar false cl.d })⟩) := by
  by_cases hv : cl.v = some true
  · exact Or.inl ⟨hv, getArgs_version cl hv⟩
  · right
    rcases h : cl.arguments with _ | ⟨p, _ | ⟨q, rest⟩⟩
    · left
      have h0 : cl.arguments.length = 0 := by simp [h]
      exact ⟨hv, Or.inl (by simp), _, getArgs_missing cl hv h0⟩
    · right
      exact ⟨hv, p, rfl, getArgs_one cl p hv h⟩
    · left
      have h1 : 1 < cl.arguments.length := by simp [h]
      exact ⟨hv, Or.inr (by simp), _, getArgs_too_many cl hv h1⟩

theorem main_of_exit {Doc : Type} (E : Engine Doc) (cl : CommandLine) (w : List String)
    (n : Nat) (h : getArgs cl = ⟨w, Ending.exit n⟩) :
    main E cl = ⟨w.map Event.print, Ending.exit n⟩ := by
  simp [main, h]

theorem main_of_parse_error {Doc : Type} (E : Engine Doc) (cl : CommandLine) (w : List String)
    (pa : ParseArgs) (sa : StreamArgs) (pr : processArgs) (err : String)
    (h : getArgs cl = ⟨w, Ending.ret (pa, sa, pr)⟩) (hp : E.Parse pa = Except.error err) :
    main E cl =
      ⟨w.map Event.print ++
        [Event.print ("Parsing pdf file: " ++ pa.Path ++ "\n"), Event.parse pa, Event.print err],
       Ending.ret ()⟩ := by
  simp [main, h, hp]

theorem main_of_check_error {Doc : Type} (E : Engine Doc) (cl : CommandLine) (w : List String)
    (pa : ParseArgs) (sa : StreamArgs) (pr : processArgs) (doc doc1 : Doc) (err : String)
    (h : getArgs cl = ⟨w, Ending.ret (pa, sa, pr)⟩) (hp : E.Parse pa = Except.ok doc)
    (hc : E.Check doc sa = (doc1, some err)) :
    main E cl =
      ⟨w.map Event.print ++
        [Event.print ("Parsing pdf file: " ++ pa.Path ++ "\n"), Event.parse pa,
         Event.check doc sa],
       Ending.exit 2⟩ := by
  simp [main, h, hp, hc]

theorem main_of_ok {Doc : Type} (E : Engine Doc) (cl : CommandLine) (w : List String)
    (pa : ParseArgs) (sa : StreamArgs) (pr : processArgs) (doc doc1 : Doc)
    (h : getArgs cl = ⟨w, Ending.ret (pa, sa, pr)⟩) (hp : E.Parse pa = Except.ok doc)
    (hc : E.Check doc sa = (doc1, none)) :
    main E cl =
      ⟨w.map Event.print ++
        [Event.print ("Parsing pdf file: " ++ pa.Path ++ "\n"), Event.parse pa,
         Event.check doc sa] ++
        (if pr.summary then
          [Event.version (E.Version doc1),
           Event.objectCount (E.Objects doc1) (E.Size doc1),
           Event.printFileIds doc1, Event.printInfo doc1, Event.printCatalog doc1]
         else []) ++
        (if pr.dump then [Event.printAllObjs doc1] else []) ++
        (if pr.output != "" then
          [Event.print ("Writing to file: " ++ pr.output ++ "\n"),
           Event.serialize doc1 pr.output (E.Serialize doc1 pr.output)]
         else []),
       Ending.ret ()⟩ := by
  simp [main, h, hp, hc]

theorem filter_isParse_main {Doc : Type} (E : Engine Doc) (cl : CommandLine) (w : List String)
    (pa : ParseArgs) (sa : StreamArgs) (pr : processArgs)
    (hg : getArgs cl = ⟨w, Ending.ret (pa, sa, pr)⟩) :
    (main E cl).events.filter Event.isParse = [Event.parse pa] := by
  rcases hP : E.Parse pa with err | doc
  · rw [main_of_parse_error E cl _ _ _ _ err hg hP]
    simp [List.filter_append, List.filter_map, Event.isParse, Function.comp_def]
  · rcases hC : E.Check doc sa with ⟨doc1, _ | err⟩
    · rw [main_of_ok E cl _ _ _ _ doc doc1 hg hP hC]
      simp only [List.filter_append, List.filter_map]
      split_ifs <;> simp [Event.isParse, Function.comp_def]
    · rw [main_of_check_error E cl _ _ _ _ doc doc1 err hg hP hC]
      simp [List.filter_append, List.filter_map, Event.isParse, Function.comp_def]

theorem filter_isCheck_main {Doc : Type} (E : Engine Doc) (cl : CommandLine) (w : List String)
    (pa : ParseArgs) (sa : StreamArgs) (pr : processArgs)
    (hg : getArgs cl = ⟨w, Ending.ret (pa, sa, pr)⟩) :
    (main E cl).events.filter Event.isCheck =
      match E.Parse pa with
      | Except.ok doc => [Event.check doc sa]
      | Except.error _ => [] := by
  rcases hP : E.Parse pa with err | doc
  · rw [main_of_parse_error E cl _ _ _ _ err hg hP]
    simp [List.filter_append, List.filter_map, Event.isCheck, Function.comp_def]
  · rcases hC : E.Check doc sa with ⟨doc1, _ | err⟩
    · rw [main_of_ok E cl _ _ _ _ doc doc1 hg hP hC]
      simp only [List.filter_append, List.filter_map]
      split_ifs <;> simp [Event.isCheck, Function.comp_def]
    · rw [main_of_check_error E cl _ _ _ _ doc doc1 err hg hP hC]
      simp [List.filter_append, List.filter_map, Event.isCheck, Function.comp_def]

/-! ## The -v option -/

/-- Once `flag.Parse` has returned with `-v` switched on, `getArgs` prints
"pdfCheck version 0.1" and a newline and ends the process with status 0; the
run of `main` consists of that print alone. -/
theorem version_prints_and_exits {Doc : Type} (E : Engine Doc) (cl : CommandLine)
    (hv : cl.v = some true) :
    getArgs cl = ⟨["pdfCheck version 0.1\n"], Ending.exit 0⟩ ∧
    main E cl = ⟨[Event.print "pdfCheck version 0.1\n"], Ending.exit 0⟩ ∧
    exitStatus (main E cl) = 0 ∧
    (main E cl).events.filter
      (fun ev => ev.isParse || ev.isCheck || ev.isSerialize) = [] := by
  have hg := getArgs_version cl hv
  have hm := main_of_exit E cl _ _ hg
  refine ⟨hg, hm, ?_, ?_⟩
  · rw [hm]; rfl
  · rw [hm]; rfl

/-! ## One file per invocation -/

/-- Once `flag.Parse` has returned without `-v` switched on: no positional
argument makes `getArgs` print "Missing the name of the file to process" and
exit with status 2, more than one makes it print "Too many files specified
(only 1 file at a time)" and exit with status 2, in both cases without Parse
being called; with exactly one, `getArgs` returns and that argument is the
path of the one call of Parse. -/
theorem one_file_per_invocation {Doc : Type} (E : Engine Doc) (cl : CommandLine)
    (hv : cl.v ≠ some true) :
    (cl.arguments.length = 0 →
      getArgs cl = ⟨["Missing the name of the file to process\n"], Ending.exit 2⟩ ∧
      main E cl = ⟨[Event.print "Missing the name of the file to process\n"], Ending.exit 2⟩ ∧
      exitStatus (main E cl) = 2) ∧
    (1 < cl.arguments.length →
      getArgs cl =
        ⟨["Too many files specified (only 1 file at a time)\n"], Ending.exit 2⟩ ∧
      main E cl =
        ⟨[Event.print "Too many files specified (only 1 file at a time)\n"], Ending.exit 2⟩ ∧
      exitStatus (main E cl) = 2) ∧
    (∀ p, cl.arguments = [p] →
      ∃ w pa sa pr, getArgs cl = ⟨w, Ending.ret (pa, sa, pr)⟩ ∧ pa.Path = p ∧
        (main E cl).events.filter Event.isParse = [Event.parse pa]) := by
  refine ⟨?_, ?_, ?_⟩
  · intro h0
    have hg := getArgs_missing cl hv h0
    have hm := main_of_exit E cl _ _ hg
    refine ⟨hg, hm, ?_⟩
    rw [hm]; rfl
  · intro h1
    have hg := getArgs_too_many cl hv h1
    have hm := main_of_exit E cl _ _ hg
    refine ⟨hg, hm, ?_⟩
    rw [hm]; rfl
  · intro p hp
    have hg := getArgs_one cl p hv hp
    exact ⟨_, _, _, _, hg, rfl, filter_isParse_main E cl _ _ _ _ hg⟩

/-! ## The configurations built by getArgs -/

/-- C4: for a command line without `-v` and with exactly one positional
argument `p`, `getArgs` returns a parse configuration with `Path = p`,
`Verbose` true iff `-vp` is switched on and `Fix` true iff `-fp` is, and a
stream configuration with `Verbose` true iff `-vs` is switched on and `Fix`
true iff `-fs` is (so a flag that does not occur gives false).  Changing `-vp`
and `-fp` leaves the stream configuration as it is, changing `-vs` and `-fs`
leaves the parse configuration as it is.  `main` calls Parse once, with the
parse configuration, and calls Check (when Parse succeeds) with the document
Parse returned and the stream configuration. -/
theorem getArgs_configurations {Doc : Type} (E : Engine Doc) (cl : CommandLine) (p : String)
    (hv : cl.v ≠ some true) (hp : cl.arguments = [p]) :
    ∃ w pa sa pr, getArgs cl = ⟨w, Ending.ret (pa, sa, pr)⟩ ∧
      pa.Path = p ∧
      (pa.Verbose = true ↔ cl.vp = some true) ∧ (pa.Fix = true ↔ cl.fp = some true) ∧
      (sa.Verbose = true ↔ cl.vs = some true) ∧ (sa.Fix = true ↔ cl.fs = some true) ∧
      (cl.vp = none → pa.Verbose = false) ∧ (cl.fp = none → pa.Fix = false) ∧
      (cl.vs = none → sa.Verbose = false) ∧ (cl.fs = none → sa.Fix = false) ∧
      (∀ vp2 fp2, ∃ w2 pa2 pr2,
        getArgs { cl with vp := vp2, fp := fp2 } = ⟨w2, Ending.ret (pa2, sa, pr2)⟩) ∧
      (∀ vs2 fs2, ∃ w2 sa2 pr2,
        getArgs { cl with vs := vs2, fs := fs2 } = ⟨w2, Ending.ret (pa, sa2, pr2)⟩) ∧
      (main E cl).events.filter Event.isParse = [Event.parse pa] ∧
      (main E cl).events.filter Event.isCheck =
        (match E.Parse pa with
         | Except.ok doc => [Event.check doc sa]
         | Except.error _ => []) := by
  have hg := getArgs_one cl p hv hp
  refine ⟨_, _, _, _, hg, rfl, flagVar_false_eq_true _, flagVar_false_eq_true _,
    flagVar_false_eq_true _, flagVar_false_eq_true _, ?_, ?_, ?_, ?_, ?_, ?_,
    filter_isParse_main E cl _ _ _ _ hg, filter_isCheck_main E cl _ _ _ _ hg⟩
  · intro h; simp [h, flagVar]
  · intro h; simp [h, flagVar]
  · intro h; simp [h, flagVar]
  · intro h; simp [h, flagVar]
  · intro vp2 fp2
    exact ⟨_, _, _, getArgs_one { cl with vp := vp2, fp := fp2 } p hv hp⟩
  · intro vs2 fs2
    exact ⟨_, _, _, getArgs_one { cl with vs := vs2, fs := fs2 } p hv hp⟩

theorem getArgs_configurations_witness :
    fullCommand.v ≠ some true ∧ fullCommand.arguments = ["in.pdf"] ∧
    ∃ w pr, getArgs fullCommand =
        ⟨w, Ending.ret (⟨"in.pdf", true, false⟩, ⟨false, true⟩, pr)⟩ ∧
      (main sampleEngine fullCommand).events.filter Event.isParse =
        [Event.parse ⟨"in.pdf", true, false⟩] := by
  refine ⟨by decide, rfl, ?_⟩
  obtain ⟨w, pa, sa, pr, hg, hpath, hvp, hfp, hvs, hfs, -, -, -, -, -, -, hparse, -⟩ :=
    getArgs_configurations sampleEngine fullCommand "in.pdf" (by decide) rfl
  have hpa : pa = ⟨"in.pdf", true, false⟩ := by
    have h1 : pa.Verbose = true := hvp.2 rfl
    have h2 : pa.Fix = false := by
      cases h : pa.Fix with
      | false => rfl
      | true => exact absurd (hfp.1 h) (by decide)
    cases pa
    simp_all
  have hsa : sa = ⟨false, true⟩ := by
    have h1 : sa.Fix = true := hfs.2 rfl
    have h2 : sa.Verbose = false := by
      cases h : sa.Verbose with
      | false => rfl
      | true => exact absurd (hvs.1 h) (by decide)
    cases sa
    simp_all
  subst hpa hsa
  exact ⟨w, pr, hg, hparse⟩

/-! ## The fix/output consistency check -/

/-- C10: for a command line without `-v` and with exactly one positional
argument, `getArgs` does not exit and returns the configurations holding the
flag values as they are, in all cases.  Writing `fixing` for "`-fp` or `-fs`
is switched on" and `output` for "the `-o` value is non-empty": when `fixing`
holds and `output` does not, the "NO output file is requested" warning is
printed; when `output` holds and `fixing` does not, the "fixing the original
file is NOT requested" warning; otherwise nothing.  So a warning is printed iff
exactly one of the two holds. -/
theorem consistency_check_only_warns (cl : CommandLine) (p : String)
    (hv : cl.v ≠ some true) (hp : cl.arguments = [p]) :
    ∃ w, getArgs cl =
      ⟨w, Ending.ret
        ({ Path := p, Verbose := flagVar false cl.vp, Fix := flagVar false cl.fp },
         { Verbose := flagVar false cl.vs, Fix := flagVar false cl.fs },
         { output := flagVar "" cl.o, summary := flagVar false cl.s,
           dump := flagVar false cl.d })⟩ ∧
      w = (if (cl.fp = some true ∨ cl.fs = some true) ∧ flagVar "" cl.o = "" then
            ["Warning: although fixing the original file is requested, NO output file is requested\n",
             "         proceeding anyway\n"]
          else if ¬ (cl.fp = some true ∨ cl.fs = some true) ∧ flagVar "" cl.o ≠ "" then
            ["Warning: although an output file is requested, fixing the original file is NOT requested\n",
             "         proceeding anyway\n"]
          else []) ∧
      (w ≠ [] ↔ ((cl.fp = some true ∨ cl.fs = some true) ↔ ¬ flagVar "" cl.o ≠ "")) := by
  have hg := getArgs_one cl p hv hp
  refine ⟨_, hg, ?_, ?_⟩
  · have e1 := flagVar_false_eq_true cl.fp
    have e2 := flagVar_false_eq_true cl.fs
    cases hfp : flagVar false cl.fp <;> cases hfs : flagVar false cl.fs <;>
      by_cases ho : flagVar "" cl.o = "" <;>
      simp_all [warningText]
  · have e1 := flagVar_false_eq_true cl.fp
    have e2 := flagVar_false_eq_true cl.fs
    cases hfp : flagVar false cl.fp <;> cases hfs : flagVar false cl.fs <;>
      by_cases ho : flagVar "" cl.o = "" <;>
      simp_all [warningText]

theorem consistency_check_only_warns_witness :
    fullCommand.v ≠ some true ∧ fullCommand.arguments = ["in.pdf"] ∧
    ∃ w, getArgs fullCommand =
      ⟨w, Ending.ret (⟨"in.pdf", true, false⟩, ⟨false, true⟩, ⟨"out.pdf", true, true⟩)⟩ ∧
      w = [] := by
  refine ⟨by decide, rfl, ?_⟩
  obtain ⟨w, hg, hw, -⟩ := consistency_check_only_warns fullCommand "in.pdf" (by decide) rfl
  refine ⟨w, ?_, ?_⟩
  · rw [hg]; rfl
  · rw [hw]; decide

/-! ## Errors of Parse and Check -/

theorem getArgs_ret_inv (cl : CommandLine) (w : List String) (pa : ParseArgs) (sa : StreamArgs)
    (pr : processArgs) (hg : getArgs cl = ⟨w, Ending.ret (pa, sa, pr)⟩) :
    cl.v ≠ some true ∧ cl.arguments = [pa.Path] ∧
    w = warningText (flagVar false cl.fp) (flagVar false cl.fs) (flagVar "" cl.o) ∧
    pa = { Path := pa.Path, Verbose := flagVar false cl.vp, Fix := flagVar false cl.fp } ∧
    sa = { Verbose := flagVar false cl.vs, Fix := flagVar false cl.fs } ∧
    pr = { output := flagVar "" cl.o, summary := flagVar false cl.s,
           dump := flagVar false cl.d } := by
  rcases getArgs_cases cl with ⟨-, h⟩ | ⟨-, -, w2, h⟩ | ⟨hv, p, hp, h⟩
  · rw [h] at hg; simp at hg
  · rw [h] at hg; simp at hg
  · rw [h] at hg
    simp only [Outcome.mk.injEq, Ending.ret.injEq, Prod.mk.injEq] at hg
    obtain ⟨hw, hpa, hsa, hpr⟩ := hg
    subst hpa hsa hpr
    exact ⟨hv, hp, hw.symm, rfl, rfl, rfl⟩

/-- C1: when argument validation passes, Parse returns a document and Check
returns an error, `main` ends the process with `os.Exit(2)` right after the
call of Check: the run holds nothing after that call, hence no summary output,
no object dump and no call of Serialize, whatever `-s`, `-d` and `-o` are. -/
theorem check_error_exits {Doc : Type} (E : Engine Doc) (cl : CommandLine) (w : List String)
    (pa : ParseArgs) (sa : StreamArgs) (pr : processArgs) (doc doc1 : Doc) (err : String)
    (hg : getArgs cl = ⟨w, Ending.ret (pa, sa, pr)⟩)
    (hP : E.Parse pa = Except.ok doc)
    (hC : E.Check doc sa = (doc1, some err)) :
    (main E cl).ending = Ending.exit 2 ∧ exitStatus (main E cl) = 2 ∧
    (main E cl).events =
      w.map Event.print ++
        [Event.print ("Parsing pdf file: " ++ pa.Path ++ "\n"), Event.parse pa,
         Event.check doc sa] ∧
    (main E cl).events.filter
      (fun ev => ev.isSummary || ev.isDump || ev.isSerialize) = [] := by
  have hm := main_of_check_error E cl w pa sa pr doc doc1 err hg hP hC
  rw [hm]
  refine ⟨rfl, rfl, rfl, ?_⟩
  simp [List.filter_append, List.filter_map, Function.comp_def, Event.isSummary, Event.isDump,
    Event.isSerialize]

/-- The command line `pdfcheck -s -d -o out.pdf broken.pdf`. -/
theorem check_error_exits_witness :
    exitStatus (main sampleEngine
      { plainCommand "broken.pdf" with s := some true, d := some true, o := some "out.pdf" }) = 2 :=
  (check_error_exits sampleEngine
    { plainCommand "broken.pdf" with s := some true, d := some true, o := some "out.pdf" }
    ["Warning: although an output file is requested, fixing the original file is NOT requested\n",
     "         proceeding anyway\n"]
    ⟨"broken.pdf", false, false⟩ ⟨false, false⟩ ⟨"out.pdf", true, true⟩ 0 0 "no object"
    (by decide) rfl rfl).2.1

/-- C2: when Parse returns an error, `main` prints that error and returns: the
run is the output of `getArgs`, the "Parsing pdf file" line, the call of Parse
and the print of the error, so Check, the summary statements, PrintAllObjs and
Serialize are not called, whatever `-fp`, `-fs`, `-s`, `-d` and `-o` are. -/
theorem parse_error_aborts {Doc : Type} (E : Engine Doc) (cl : CommandLine) (w : List String)
    (pa : ParseArgs) (sa : StreamArgs) (pr : processArgs) (err : String)
    (hg : getArgs cl = ⟨w, Ending.ret (pa, sa, pr)⟩)
    (hP : E.Parse pa = Except.error err) :
    (main E cl).events =
      w.map Event.print ++
        [Event.print ("Parsing pdf file: " ++ pa.Path ++ "\n"), Event.parse pa,
         Event.print err] ∧
    (main E cl).events.getLast? = some (Event.print err) ∧
    (main E cl).events.filter
      (fun ev => ev.isCheck || ev.isSummary || ev.isDump || ev.isSerialize) = [] := by
  have hm := main_of_parse_error E cl w pa sa pr err hg hP
  rw [hm]
  refine ⟨rfl, ?_, ?_⟩
  · simp
  · simp [List.filter_append, List.filter_map, Function.comp_def, Event.isSummary, Event.isDump,
      Event.isSerialize, Event.isCheck]

/-- The command line `pdfcheck -fp -fs -s -d -o out.pdf missing.pdf`. -/
theorem parse_error_aborts_witness :
    (main sampleEngine
      { plainCommand "missing.pdf" with
        fp := some true, fs := some true, s := some true, d := some true,
        o := some "out.pdf" }).events =
      [Event.print "Parsing pdf file: missing.pdf\n",
       Event.parse ⟨"missing.pdf", false, true⟩,
       Event.print "open missing.pdf: no such file or directory\n"] :=
  (parse_error_aborts sampleEngine
    { plainCommand "missing.pdf" with
      fp := some true, fs := some true, s := some true, d := some true, o := some "out.pdf" }
    [] ⟨"missing.pdf", false, true⟩ ⟨false, true⟩ ⟨"out.pdf", true, true⟩
    "open missing.pdf: no such file or directory\n"
    (by decide) rfl).1

/-! ## When Serialize is called -/

theorem serializeCalls_main {Doc : Type} (E : Engine Doc) (cl : CommandLine) :
    serializeCalls (main E cl).events =
      match getArgs cl with
      | ⟨_, Ending.exit _⟩ => []
      | ⟨_, Ending.ret (pa, sa, pr)⟩ =>
        match E.Parse pa with
        | Except.error _ => []
        | Except.ok doc =>
          match E.Check doc sa with
          | (_, some _) => []
          | (doc1, none) => if pr.output ≠ "" then [(doc1, pr.output)] else [] := by
  rcases hg : getArgs cl with ⟨w, n | ⟨pa, sa, pr⟩⟩
  · rw [main_of_exit E cl w n hg]
    simp [serializeCalls, List.filterMap_map, Function.comp_def]
  · rcases hP : E.Parse pa with err | doc
    · rw [main_of_parse_error E cl _ _ _ _ err hg hP]
      simp [serializeCalls, List.filterMap_append, List.filterMap_map, Function.comp_def, hP]
    · rcases hC : E.Check doc sa with ⟨doc1, _ | err⟩
      · rw [main_of_ok E cl _ _ _ _ doc doc1 hg hP hC]
        simp only [serializeCalls, List.filterMap_append, List.filterMap_map]
        split_ifs <;> simp_all [Function.comp_def]
      · rw [main_of_check_error E cl _ _ _ _ doc doc1 err hg hP hC]
        simp [serializeCalls, List.filterMap_append, List.filterMap_map, Function.comp_def, hP,
          hC]

/-- C3: the calls of Serialize in a run are exactly one call, on the checked
document and with the path given to `-o`, iff argument validation passed,
Parse returned a document, Check returned no error on it and the `-o` value is
a non-empty string; and there is no call iff that does not hold.  The
condition does not mention `-fp` and `-fs`. -/
theorem serialize_called_iff {Doc : Type} (E : Engine Doc) (cl : CommandLine) :
    (∀ doc1 path, serializeCalls (main E cl).events = [(doc1, path)] ↔
      ∃ w pa sa pr doc, getArgs cl = ⟨w, Ending.ret (pa, sa, pr)⟩ ∧
        E.Parse pa = Except.ok doc ∧ E.Check doc sa = (doc1, none) ∧
        cl.o = some path ∧ path ≠ "") ∧
    (serializeCalls (main E cl).events = [] ↔
      ¬ ∃ doc1 path w pa sa pr doc, getArgs cl = ⟨w, Ending.ret (pa, sa, pr)⟩ ∧
        E.Parse pa = Except.ok doc ∧ E.Check doc sa = (doc1, none) ∧
        cl.o = some path ∧ path ≠ "") := by
  have key := serializeCalls_main E cl
  rcases hg : getArgs cl with ⟨w, n | ⟨pa, sa, pr⟩⟩
  · rw [hg] at key
    simp only at key
    rw [key]
    simp
  · obtain ⟨-, -, -, -, -, hpr⟩ := getArgs_ret_inv cl w pa sa pr hg
    have hout : pr.output = flagVar "" cl.o := by rw [hpr]
    rw [hg] at key
    simp only at key
    rcases hP : E.Parse pa with err | doc
    · rw [hP] at key
      simp only at key
      rw [key]
      simp [hP]
    · rw [hP] at key
      simp only at key
      rcases hC : E.Check doc sa with ⟨doc2, _ | err⟩
      · rw [hC] at key
        simp only at key
        rw [key, hout]
        cases ho : cl.o with
        | none => simp [flagVar]
        | some q =>
          by_cases hq : q = ""
          · subst hq
            simp only [flagVar, ne_eq, not_true_eq_false, if_false]
            constructor
            · intro doc1 path
              constructor
              · intro h; simp at h
              · rintro ⟨_, _, _, _, _, -, -, -, h4, h5⟩
                cases h4
                exact absurd rfl h5
            · simp only [true_iff]
              rintro ⟨_, _, _, _, _, _, _, -, -, -, h4, h5⟩
              cases h4
              exact absurd rfl h5
          · simp only [flagVar, ne_eq, hq, not_false_eq_true, if_true]
            constructor
            · intro doc1 path
              constructor
              · intro h
                simp only [List.cons.injEq, Prod.mk.injEq, and_true] at h
                obtain ⟨h1, h2⟩ := h
                subst h1 h2
                exact ⟨w, pa, sa, pr, doc, rfl, hP, hC, rfl, hq⟩
              · rintro ⟨w2, pa2, sa2, pr2, doc3, h1, h2, h3, h4, -⟩
                simp only [Outcome.mk.injEq, Ending.ret.injEq, Prod.mk.injEq] at h1
                obtain ⟨-, e1, e2, -⟩ := h1
                subst e1 e2
                rw [hP] at h2
                cases h2
                rw [hC] at h3
                cases h3
                cases h4
                rfl
            · simp only [List.cons_ne_nil, false_iff, not_not]
              exact ⟨doc2, q, w, pa, sa, pr, doc, rfl, hP, hC, rfl, hq⟩
      · rw [hC] at key
        simp only at key
        rw [key]
        simp only [List.nil_eq, List.cons_ne_nil, false_iff, true_iff, not_exists, not_and]
        constructor
        · intro doc1 path w2 pa2 sa2 pr2 doc3 h1 h2 h3
          simp only [Outcome.mk.injEq, Ending.ret.injEq, Prod.mk.injEq] at h1
          obtain ⟨-, e1, e2, -⟩ := h1
          subst e1 e2
          rw [hP] at h2
          cases h2
          rw [hC] at h3
          cases h3
        · intro doc1 path w2 pa2 sa2 pr2 doc3 h1 h2 h3
          simp only [Outcome.mk.injEq, Ending.ret.injEq, Prod.mk.injEq] at h1
          obtain ⟨-, e1, e2, -⟩ := h1
          subst e1 e2
          rw [hP] at h2
          cases h2
          rw [hC] at h3
          cases h3

/-- The command line `pdfcheck -o out.pdf a.pdf`: Serialize is called though
no fixing is requested. -/
theorem serialize_called_iff_witness :
    serializeCalls (main sampleEngine { plainCommand "a.pdf" with o := some "out.pdf" }).events =
      [(7, "out.pdf")] :=
  ((serialize_called_iff sampleEngine { plainCommand "a.pdf" with o := some "out.pdf" }).1
      7 "out.pdf").2
    ⟨["Warning: although an output file is requested, fixing the original file is NOT requested\n",
      "         proceeding anyway\n"],
     ⟨"a.pdf", false, false⟩, ⟨false, false⟩, ⟨"out.pdf", false, false⟩, 7,
     by decide, rfl, rfl, rfl, by decide⟩

/-! ## The order of the engine operations -/

theorem filterMap_rank_prints {Doc : Type} (w : List String) :
    (w.map (fun t => (Event.print t : Event Doc))).filterMap pipelineRank = [] := by
  induction w with
  | nil => rfl
  | cons t rest ih => simp [pipelineRank]

/-- Every event of a run that passed argument validation is a print, the call
of Parse, the call of Check on the parsed document, or (after a Check without
error) a statement of the summary, dump or output block guarded by its flag. -/
theorem mem_main_events {Doc : Type} (E : Engine Doc) (cl : CommandLine) (w : List String)
    (pa : ParseArgs) (sa : StreamArgs) (pr : processArgs) (ev : Event Doc)
    (hg : getArgs cl = ⟨w, Ending.ret (pa, sa, pr)⟩) (hmem : ev ∈ (main E cl).events) :
    (∃ t, ev = Event.print t) ∨ ev = Event.parse pa ∨
    ∃ doc, E.Parse pa = Except.ok doc ∧
      (ev = Event.check doc sa ∨
       ∃ doc1, E.Check doc sa = (doc1, none) ∧ (main E cl).ending = Ending.ret () ∧
        ((pr.summary = true ∧
            ev ∈ [Event.version (E.Version doc1),
                  Event.objectCount (E.Objects doc1) (E.Size doc1),
                  Event.printFileIds doc1, Event.printInfo doc1, Event.printCatalog doc1]) ∨
         (pr.dump = true ∧ ev = Event.printAllObjs doc1) ∨
         (pr.output ≠ "" ∧
            ev = Event.serialize doc1 pr.output (E.Serialize doc1 pr.output)))) := by
  rcases hP : E.Parse pa with err | doc
  · rw [main_of_parse_error E cl _ _ _ _ err hg hP] at hmem
    simp only [List.mem_append, List.mem_map, List.mem_cons, List.mem_singleton,
      List.not_mem_nil, or_false] at hmem
    rcases hmem with ⟨t, -, rfl⟩ | rfl | rfl | rfl
    · exact Or.inl ⟨t, rfl⟩
    · exact Or.inl ⟨_, rfl⟩
    · exact Or.inr (Or.inl rfl)
    · exact Or.inl ⟨_, rfl⟩
  · rcases hC : E.Check doc sa with ⟨doc1, _ | err⟩
    · have hm := main_of_ok E cl _ _ _ _ doc doc1 hg hP hC
      rw [hm] at hmem
      simp only [List.mem_append, List.mem_map, List.mem_cons, List.mem_singleton,
        List.not_mem_nil, or_false] at hmem
      rcases hmem with (((⟨t, -, rfl⟩ | rfl | rfl | rfl) | h) | h) | h
      · exact Or.inl ⟨t, rfl⟩
      · exact Or.inl ⟨_, rfl⟩
      · exact Or.inr (Or.inl rfl)
      · exact Or.inr (Or.inr ⟨doc, rfl, Or.inl rfl⟩)
      · refine Or.inr (Or.inr ⟨doc, rfl, Or.inr ⟨doc1, hC, by rw [hm], Or.inl ?_⟩⟩)
        by_cases hs : pr.summary = true
        · rw [if_pos hs] at h
          exact ⟨hs, h⟩
        · rw [if_neg hs] at h
          exact absurd h (List.not_mem_nil _)
      · refine Or.inr (Or.inr ⟨doc, rfl, Or.inr ⟨doc1, hC, by rw [hm], Or.inr (Or.inl ?_)⟩⟩)
        by_cases hd : pr.dump = true
        · rw [if_pos hd] at h
          exact ⟨hd, List.mem_singleton.1 h⟩
        · rw [if_neg hd] at h
          exact absurd h (List.not_mem_nil _)
      · by_cases ho : (pr.output != "") = true
        · rw [if_pos ho] at h
          simp only [List.mem_cons, List.mem_singleton, List.not_mem_nil, or_false] at h
          rcases h with rfl | rfl
          · exact Or.inl ⟨_, rfl⟩
          · refine Or.inr (Or.inr ⟨doc, rfl, Or.inr ⟨doc1, hC, by rw [hm], Or.inr (Or.inr ?_)⟩⟩)
            exact ⟨by simpa using ho, rfl⟩
        · rw [if_neg ho] at h
          exact absurd h (List.not_mem_nil _)
    · rw [main_of_check_error E cl _ _ _ _ doc doc1 err hg hP hC] at hmem
      simp only [List.mem_append, List.mem_map, List.mem_cons, List.mem_singleton,
        List.not_mem_nil, or_false] at hmem
      rcases hmem with ⟨t, -, rfl⟩ | rfl | rfl | rfl
      · exact Or.inl ⟨t, rfl⟩
      · exact Or.inl ⟨_, rfl⟩
      · exact Or.inr (Or.inl rfl)
      · exact Or.inr (Or.inr ⟨doc, rfl, Or.inl rfl⟩)

theorem mem_main_events_of_exit {Doc : Type} (E : Engine Doc) (cl : CommandLine)
    (w : List String) (n : Nat) (ev : Event Doc)
    (hg : getArgs cl = ⟨w, Ending.exit n⟩) (hmem : ev ∈ (main E cl).events) :
    ∃ t, ev = Event.print t := by
  rw [main_of_exit E cl w n hg] at hmem
  simp only [List.mem_map] at hmem
  obtain ⟨t, -, rfl⟩ := hmem
  exact ⟨t, rfl⟩

theorem parse_mem_main {Doc : Type} (E : Engine Doc) (cl : CommandLine) (w : List String)
    (pa : ParseArgs) (sa : StreamArgs) (pr : processArgs)
    (hg : getArgs cl = ⟨w, Ending.ret (pa, sa, pr)⟩) :
    Event.parse pa ∈ (main E cl).events := by
  have h : Event.parse pa ∈ (main E cl).events.filter Event.isParse := by
    rw [filter_isParse_main E cl w pa sa pr hg]; exact List.mem_singleton.2 rfl
  exact (List.mem_filter.1 h).1

theorem check_mem_main {Doc : Type} (E : Engine Doc) (cl : CommandLine) (w : List String)
    (pa : ParseArgs) (sa : StreamArgs) (pr : processArgs) (doc : Doc)
    (hg : getArgs cl = ⟨w, Ending.ret (pa, sa, pr)⟩) (hP : E.Parse pa = Except.ok doc) :
    Event.check doc sa ∈ (main E cl).events := by
  have h : Event.check doc sa ∈ (main E cl).events.filter Event.isCheck := by
    rw [filter_isCheck_main E cl w pa sa pr hg, hP]; exact List.mem_singleton.2 rfl
  exact (List.mem_filter.1 h).1

theorem ranks_main {Doc : Type} (E : Engine Doc) (cl : CommandLine) :
    List.Pairwise (fun a b => a < b) ((main E cl).events.filterMap pipelineRank) := by
  rcases hg : getArgs cl with ⟨w, n | ⟨pa, sa, pr⟩⟩
  · rw [main_of_exit E cl w n hg, filterMap_rank_prints]
    exact List.Pairwise.nil
  · rcases hP : E.Parse pa with err | doc
    · rw [main_of_parse_error E cl _ _ _ _ err hg hP, List.filterMap_append,
        filterMap_rank_prints]
      simp [pipelineRank]
    · rcases hC : E.Check doc sa with ⟨doc1, _ | err⟩
      · rw [main_of_ok E cl _ _ _ _ doc doc1 hg hP hC]
        simp only [List.filterMap_append, filterMap_rank_prints]
        split_ifs <;> simp [pipelineRank]
      · rw [main_of_check_error E cl _ _ _ _ doc doc1 err hg hP hC, List.filterMap_append,
          filterMap_rank_prints]
        simp [pipelineRank]

/-- C5: in every run the engine operations occur in the order Parse, Check,
version, object count, PrintFileIds, PrintInfo, PrintCatalog, PrintAllObjs,
Serialize, each at most once (their places in that order increase strictly
along the run).  Check is called on the document that Parse returned; a
summary statement occurs only with `-s`, PrintAllObjs only with `-d`, Serialize
only with a non-empty `-o` value and only on the document left by a call of
Check that returned no error. -/
theorem pipeline_order {Doc : Type} (E : Engine Doc) (cl : CommandLine) :
    List.Pairwise (fun a b => a < b) ((main E cl).events.filterMap pipelineRank) ∧
    (∀ doc sa, Event.check doc sa ∈ (main E cl).events →
      ∃ pa, Event.parse pa ∈ (main E cl).events ∧ E.Parse pa = Except.ok doc) ∧
    (∀ doc1 path r, Event.serialize doc1 path r ∈ (main E cl).events →
      ∃ doc sa, Event.check doc sa ∈ (main E cl).events ∧ E.Check doc sa = (doc1, none)) ∧
    (∀ ev ∈ (main E cl).events, ev.isSummary = true → cl.s = some true) ∧
    (∀ ev ∈ (main E cl).events, ev.isDump = true → cl.d = some true) ∧
    (∀ ev ∈ (main E cl).events, ev.isSerialize = true →
      ∃ path, cl.o = some path ∧ path ≠ "") := by
  refine ⟨ranks_main E cl, ?_⟩
  rcases hg : getArgs cl with ⟨w, n | ⟨pa, sa, pr⟩⟩
  · have hx := fun ev => mem_main_events_of_exit E cl w n ev hg
    refine ⟨?_, ?_, ?_, ?_, ?_⟩
    · intro doc sa hmem
      obtain ⟨t, ht⟩ := hx _ hmem
      cases ht
    · intro doc path r hmem
      obtain ⟨t, ht⟩ := hx _ hmem
      cases ht
    · intro ev hmem hev
      obtain ⟨t, rfl⟩ := hx _ hmem
      simp [Event.isSummary] at hev
    · intro ev hmem hev
      obtain ⟨t, rfl⟩ := hx _ hmem
      simp [Event.isDump] at hev
    · intro ev hmem hev
      obtain ⟨t, rfl⟩ := hx _ hmem
      simp [Event.isSerialize] at hev
  · obtain ⟨-, -, -, -, -, hpr⟩ := getArgs_ret_inv cl w pa sa pr hg
    have hs : pr.summary = true → cl.s = some true := by
      rw [hpr]; exact (flagVar_false_eq_true cl.s).1
    have hd : pr.dump = true → cl.d = some true := by
      rw [hpr]; exact (flagVar_false_eq_true cl.d).1
    have ho : pr.output ≠ "" → ∃ path, cl.o = some path ∧ path ≠ "" := by
      rw [hpr]; exact (flagVar_output_ne cl.o).1
    have hx := fun ev => mem_main_events E cl w pa sa pr ev hg
    refine ⟨?_, ?_, ?_, ?_, ?_⟩
    · intro doc sa2 hmem
      refine ⟨pa, parse_mem_main E cl w pa sa pr hg, ?_⟩
      rcases hx _ hmem with ⟨t, ht⟩ | ht | ⟨doc0, hP, ht | ⟨doc1, -, -, h⟩⟩
      · cases ht
      · cases ht
      · cases ht; exact hP
      · rcases h with ⟨-, h⟩ | ⟨-, h⟩ | ⟨-, h⟩
        · simp at h
        · cases h
        · cases h
    · intro doc2 path r hmem
      rcases hx _ hmem with ⟨t, ht⟩ | ht | ⟨doc0, hP, ht | ⟨doc1, hC, -, h⟩⟩
      · cases ht
      · cases ht
      · cases ht
      · refine ⟨doc0, sa, check_mem_main E cl w pa sa pr doc0 hg hP, ?_⟩
        rcases h with ⟨-, h⟩ | ⟨-, h⟩ | ⟨-, h⟩
        · simp at h
        · cases h
        · cases h; exact hC
    · intro ev hmem hev
      rcases hx _ hmem with ⟨t, rfl⟩ | rfl | ⟨doc0, hP, rfl | ⟨doc1, hC, -, h⟩⟩
      · simp [Event.isSummary] at hev
      · simp [Event.isSummary] at hev
      · simp [Event.isSummary] at hev
      · rcases h with ⟨h, -⟩ | ⟨-, rfl⟩ | ⟨-, rfl⟩
        · exact hs h
        · simp [Event.isSummary] at hev
        · simp [Event.isSummary] at hev
    · intro ev hmem hev
      rcases hx _ hmem with ⟨t, rfl⟩ | rfl | ⟨doc0, hP, rfl | ⟨doc1, hC, -, h⟩⟩
      · simp [Event.isDump] at hev
      · simp [Event.isDump] at hev
      · simp [Event.isDump] at hev
      · rcases h with ⟨-, h⟩ | ⟨h, -⟩ | ⟨-, rfl⟩
        · simp only [List.mem_cons, List.mem_singleton, List.not_mem_nil, or_false] at h
          rcases h with rfl | rfl | rfl | rfl | rfl <;> simp [Event.isDump] at hev
        · exact hd h
        · simp [Event.isDump] at hev
    · intro ev hmem hev
      rcases hx _ hmem with ⟨t, rfl⟩ | rfl | ⟨doc0, hP, rfl | ⟨doc1, hC, -, h⟩⟩
      · simp [Event.isSerialize] at hev
      · simp [Event.isSerialize] at hev
      · simp [Event.isSerialize] at hev
      · rcases h with ⟨-, h⟩ | ⟨-, rfl⟩ | ⟨h, -⟩
        · simp only [List.mem_cons, List.mem_singleton, List.not_mem_nil, or_false] at h
          rcases h with rfl | rfl | rfl | rfl | rfl <;> simp [Event.isSerialize] at hev
        · simp [Event.isSerialize] at hev
        · exact ho h

/-- The command line `pdfcheck -vp -fs -s -d -o out.pdf in.pdf`: all nine
operations occur, in the order of the pipeline. -/
theorem pipeline_order_witness :
    (main sampleEngine fullCommand).events.filterMap pipelineRank = [0, 1, 2, 3, 4, 5, 6, 7, 8] ∧
    List.Pairwise (fun a b => a < b)
      ((main sampleEngine fullCommand).events.filterMap pipelineRank) ∧
    (∃ pa, Event.parse pa ∈ (main sampleEngine fullCommand).events ∧
      sampleEngine.Parse pa = Except.ok 7) ∧
    (∃ doc sa, Event.check doc sa ∈ (main sampleEngine fullCommand).events ∧
      sampleEngine.Check doc sa = (7, none)) ∧
    fullCommand.s = some true ∧ fullCommand.d = some true ∧
    (∃ path, fullCommand.o = some path ∧ path ≠ "") :=
  ⟨by decide,
   (pipeline_order sampleEngine fullCommand).1,
   (pipeline_order sampleEngine fullCommand).2.1 7 ⟨false, true⟩ (by decide),
   (pipeline_order sampleEngine fullCommand).2.2.1 7 "out.pdf" none (by decide),
   (pipeline_order sampleEngine fullCommand).2.2.2.1 (Event.printInfo 7) (by decide) rfl,
   (pipeline_order sampleEngine fullCommand).2.2.2.2.1 (Event.printAllObjs 7) (by decide) rfl,
   (pipeline_order sampleEngine fullCommand).2.2.2.2.2 (Event.serialize 7 "out.pdf" none)
     (by decide) rfl⟩

/-! ## The exit status -/

/-- C9: the exit status of a run is not 0 only when it is 2 and either
`getArgs` ended the process (argument validation failed) or Check returned an
error.  When Parse returns an error, `main` prints it and returns, so the
status is 0.  When Serialize is called, whatever it returns, `main` returns
and the status is 0. -/
theorem exit_status_cases {Doc : Type} (E : Engine Doc) (cl : CommandLine) :
    (exitStatus (main E cl) ≠ 0 →
      exitStatus (main E cl) = 2 ∧
      ((∃ w, getArgs cl = ⟨w, Ending.exit 2⟩) ∨
       ∃ w pa sa pr doc doc1 err, getArgs cl = ⟨w, Ending.ret (pa, sa, pr)⟩ ∧
         E.Parse pa = Except.ok doc ∧ E.Check doc sa = (doc1, some err))) ∧
    (∀ w pa sa pr err, getArgs cl = ⟨w, Ending.ret (pa, sa, pr)⟩ →
      E.Parse pa = Except.error err →
      Event.print err ∈ (main E cl).events ∧ (main E cl).ending = Ending.ret () ∧
      exitStatus (main E cl) = 0) ∧
    (∀ doc path r, Event.serialize doc path r ∈ (main E cl).events →
      (main E cl).ending = Ending.ret () ∧ exitStatus (main E cl) = 0) := by
  refine ⟨?_, ?_, ?_⟩
  · intro hne
    rcases getArgs_cases cl with ⟨-, h⟩ | ⟨-, -, w, h⟩ | ⟨-, p, -, h⟩
    · rw [main_of_exit E cl _ _ h] at hne
      exact absurd rfl hne
    · rw [main_of_exit E cl _ _ h]
      exact ⟨rfl, Or.inl ⟨w, h⟩⟩
    · rcases hP : E.Parse
          { Path := p, Verbose := flagVar false cl.vp, Fix := flagVar false cl.fp } with err | doc
      · rw [main_of_parse_error E cl _ _ _ _ err h hP] at hne
        exact absurd rfl hne
      · rcases hC : E.Check doc
            { Verbose := flagVar false cl.vs, Fix := flagVar false cl.fs } with ⟨doc1, _ | err⟩
        · rw [main_of_ok E cl _ _ _ _ doc doc1 h hP hC] at hne
          exact absurd rfl hne
        · rw [main_of_check_error E cl _ _ _ _ doc doc1 err h hP hC]
          exact ⟨rfl, Or.inr ⟨_, _, _, _, doc, doc1, err, h, hP, hC⟩⟩
  · intro w pa sa pr err hg hP
    rw [main_of_parse_error E cl w pa sa pr err hg hP]
    refine ⟨?_, rfl, rfl⟩
    simp
  · intro doc path r hmem
    rcases hg : getArgs cl with ⟨w, n | ⟨pa, sa, pr⟩⟩
    · obtain ⟨t, ht⟩ := mem_main_events_of_exit E cl w n _ hg hmem
      cases ht
    · rcases mem_main_events E cl w pa sa pr _ hg hmem with
        ⟨t, ht⟩ | ht | ⟨doc0, -, ht | ⟨doc1, -, hend, -⟩⟩
      · cases ht
      · cases ht
      · cases ht
      · refine ⟨hend, ?_⟩
        simp [exitStatus, hend]

/-- The command lines `pdfcheck missing.pdf` (Parse fails), `pdfcheck -o /
a.pdf` (Serialize fails) and `pdfcheck broken.pdf` (Check fails). -/
theorem exit_status_cases_witness :
    exitStatus (main sampleEngine (plainCommand "missing.pdf")) = 0 ∧
    Event.serialize 7 "/" (some "open /: is a directory") ∈
      (main sampleEngine { plainCommand "a.pdf" with o := some "/" }).events ∧
    exitStatus (main sampleEngine { plainCommand "a.pdf" with o := some "/" }) = 0 ∧
    exitStatus (main sampleEngine (plainCommand "broken.pdf")) = 2 :=
  ⟨((exit_status_cases sampleEngine (plainCommand "missing.pdf")).2.1
      [] ⟨"missing.pdf", false, false⟩ ⟨false, false⟩ ⟨"", false, false⟩
      "open missing.pdf: no such file or directory\n" (by decide) rfl).2.2,
   by decide,
   ((exit_status_cases sampleEngine { plainCommand "a.pdf" with o := some "/" }).2.2
      7 "/" (some "open /: is a directory") (by decide)).2,
   ((exit_status_cases sampleEngine (plainCommand "broken.pdf")).1 (by decide)).1⟩

/-! ## The command line, through flag.Parse -/

theorem getArgsArgv_of_returned (argv : List String)
    (hret : (flagParse argv).ending = FlagEnding.returned) :
    getArgsArgv argv = getArgs (flagParse argv).vars := by
  simp [getArgsArgv, hret, FlagEnding.status]

theorem mainArgv_of_returned {Doc : Type} (E : Engine Doc) (argv : List String)
    (hret : (flagParse argv).ending = FlagEnding.returned) :
    mainArgv E argv = main E (flagParse argv).vars := by
  simp [mainArgv, hret, FlagEnding.status]

theorem mainArgv_of_not_returned {Doc : Type} (E : Engine Doc) (argv : List String)
    (hret : (flagParse argv).ending ≠ FlagEnding.returned) :
    (mainArgv E argv).events = [] := by
  cases h : (flagParse argv).ending with
  | returned => exact absurd h hret
  | help => simp [mainArgv, h, FlagEnding.status]
  | failed err => simp [mainArgv, h, FlagEnding.status]

/-- C7, counterexample: on `pdfcheck -v -x a.pdf` the flag `-v` is set, and
`getArgs` ends the process inside `flag.Parse` with status 2 and without the
version line (`-x` is not defined); on `pdfcheck -v -h` it is set too, and the
process ends with status 0 after the usage text, without the version line. -/
theorem version_exits_counterexample :
    (flagParse ["-v", "-x", "a.pdf"]).vars.v = some true ∧
    getArgsArgv ["-v", "-x", "a.pdf"] = ⟨[], Ending.exit 2⟩ ∧
    mainArgv sampleEngine ["-v", "-x", "a.pdf"] = ⟨[], Ending.exit 2⟩ ∧
    (flagParse ["-v", "-h"]).vars.v = some true ∧
    (flagParse ["-v", "-h"]).ending.usage = [HELP] ∧
    getArgsArgv ["-v", "-h"] = ⟨[], Ending.exit 0⟩ := by
  refine ⟨?_, ?_, ?_, ?_, ?_, ?_⟩ <;> rfl

/-- C7, amended: for every command line in which `-v` is set, Parse, Check and
Serialize are never called; and when `flag.Parse` accepts the command line
(it returns: no `-h` or `-help`, no undefined flag, no malformed flag value),
whatever the other flags and the number of positional arguments, `getArgs`
prints "pdfCheck version 0.1" and a newline and ends the process with
status 0. -/
theorem version_exits_when_accepted {Doc : Type} (E : Engine Doc) (argv : List String)
    (hv : (flagParse argv).vars.v = some true) :
    (mainArgv E argv).events.filter
      (fun ev => ev.isParse || ev.isCheck || ev.isSerialize) = [] ∧
    ((flagParse argv).ending = FlagEnding.returned →
      getArgsArgv argv = ⟨["pdfCheck version 0.1\n"], Ending.exit 0⟩ ∧
      mainArgv E argv = ⟨[Event.print "pdfCheck version 0.1\n"], Ending.exit 0⟩ ∧
      exitStatus (mainArgv E argv) = 0) := by
  have key := version_prints_and_exits E (flagParse argv).vars hv
  constructor
  · by_cases hret : (flagParse argv).ending = FlagEnding.returned
    · rw [mainArgv_of_returned E argv hret]
      exact key.2.2.2
    · rw [mainArgv_of_not_returned E argv hret]
      rfl
  · intro hret
    rw [getArgsArgv_of_returned argv hret, mainArgv_of_returned E argv hret]
    exact ⟨key.1, key.2.1, key.2.2.1⟩

/-- The command line `pdfcheck -v -fp -s a.pdf b.pdf`. -/
theorem version_exits_when_accepted_witness :
    (flagParse ["-v", "-fp", "-s", "a.pdf", "b.pdf"]).vars.v = some true ∧
    (flagParse ["-v", "-fp", "-s", "a.pdf", "b.pdf"]).ending = FlagEnding.returned ∧
    mainArgv sampleEngine ["-v", "-fp", "-s", "a.pdf", "b.pdf"] =
      ⟨[Event.print "pdfCheck version 0.1\n"], Ending.exit 0⟩ :=
  ⟨by decide, by decide,
   ((version_exits_when_accepted sampleEngine ["-v", "-fp", "-s", "a.pdf", "b.pdf"]
      (by decide)).2 (by decide)).2.1⟩

/-- C6, counterexample: `pdfcheck -h` has no `-v` and no positional argument,
and `getArgs` ends the process inside `flag.Parse` with status 0 after the
usage text, without the "Missing the name" message; `pdfcheck -o` has none
either and ends with status 2 without that message; `pdfcheck -x a.pdf` has
one file name and `getArgs` exits with status 2 instead of returning. -/
theorem one_file_counterexample :
    flagParse ["-h"] = ⟨noFlags, FlagEnding.help⟩ ∧
    (flagParse ["-h"]).ending.usage = [HELP] ∧
    getArgsArgv ["-h"] = ⟨[], Ending.exit 0⟩ ∧
    mainArgv sampleEngine ["-h"] = ⟨[], Ending.exit 0⟩ ∧
    (flagParse ["-o"]).vars.v = none ∧ (flagParse ["-o"]).vars.arguments = [] ∧
    getArgsArgv ["-o"] = ⟨[], Ending.exit 2⟩ ∧
    (flagParse ["-x", "a.pdf"]).vars.arguments = ["a.pdf"] ∧
    getArgsArgv ["-x", "a.pdf"] = ⟨[], Ending.exit 2⟩ := by
  refine ⟨?_, ?_, ?_, ?_, ?_, ?_, ?_, ?_, ?_⟩ <;> rfl

/-- C6, amended: for every command line that `flag.Parse` accepts (it
returns: no `-h` or `-help`, no undefined flag, no malformed flag value) and
in which `-v` is not switched on: with no positional argument `getArgs` prints
"Missing the name of the file to process" and exits with status 2, with more
than one it prints "Too many files specified (only 1 file at a time)" and
exits with status 2, in both cases without Parse being called; with exactly
one positional argument it does not exit and that argument is the path given
to Parse. -/
theorem one_file_when_accepted {Doc : Type} (E : Engine Doc) (argv : List String)
    (hret : (flagParse argv).ending = FlagEnding.returned)
    (hv : (flagParse argv).vars.v ≠ some true) :
    ((flagParse argv).vars.arguments.length = 0 →
      getArgsArgv argv = ⟨["Missing the name of the file to process\n"], Ending.exit 2⟩ ∧
      mainArgv E argv =
        ⟨[Event.print "Missing the name of the file to process\n"], Ending.exit 2⟩ ∧
      exitStatus (mainArgv E argv) = 2) ∧
    (1 < (flagParse argv).vars.arguments.length →
      getArgsArgv argv =
        ⟨["Too many files specified (only 1 file at a time)\n"], Ending.exit 2⟩ ∧
      mainArgv E argv =
        ⟨[Event.print "Too many files specified (only 1 file at a time)\n"], Ending.exit 2⟩ ∧
      exitStatus (mainArgv E argv) = 2) ∧
    (∀ p, (flagParse argv).vars.arguments = [p] →
      ∃ w pa sa pr, getArgsArgv argv = ⟨w, Ending.ret (pa, sa, pr)⟩ ∧ pa.Path = p ∧
        (mainArgv E argv).events.filter Event.isParse = [Event.parse pa]) := by
  rw [getArgsArgv_of_returned argv hret, mainArgv_of_returned E argv hret]
  exact one_file_per_invocation E (flagParse argv).vars hv

/-- The command lines `pdfcheck -s`, `pdfcheck -s a.pdf b.pdf` and
`pdfcheck -s a.pdf`. -/
theorem one_file_when_accepted_witness :
    (mainArgv sampleEngine ["-s"] =
      ⟨[Event.print "Missing the name of the file to process\n"], Ending.exit 2⟩) ∧
    (mainArgv sampleEngine ["-s", "a.pdf", "b.pdf"] =
      ⟨[Event.print "Too many files specified (only 1 file at a time)\n"], Ending.exit 2⟩) ∧
    (∃ w pa sa pr, getArgsArgv ["-s", "a.pdf"] = ⟨w, Ending.ret (pa, sa, pr)⟩ ∧
      pa.Path = "a.pdf" ∧
      (mainArgv sampleEngine ["-s", "a.pdf"]).events.filter Event.isParse =
        [Event.parse pa]) :=
  ⟨((one_file_when_accepted sampleEngine ["-s"] (by decide) (by decide)).1 (by decide)).2.1,
   ((one_file_when_accepted sampleEngine ["-s", "a.pdf", "b.pdf"] (by decide)
      (by decide)).2.1 (by decide)).2.1,
   (one_file_when_accepted sampleEngine ["-s", "a.pdf"] (by decide) (by decide)).2.2
      "a.pdf" (by decide)⟩

end PdfCheck
